import Mathlib

/-!
# Verification of the `icon-sys` folder-icon library (Windows backend)

Shallow embedding of the core data model and operations of the `icon-sys`
repository, translated from the Rust source:

* `src/icon/sys/windows.rs` — icon size catalog, icon images, icon sets;
* `src/folder_settings/sys/windows/folder_settings_provider.rs` — the
  folder settings manager (validation, stale-file cleanup, encoder, shell
  pointer updates);
* `src/folder_settings/sys/windows/default_folder_icon_provider.rs` — the
  default-icon extraction pipeline (modelled with an explicit environment
  describing the outcome of each Win32 call).

Filesystem and shell state is modelled by an explicit `World` record for the
target directory; each settings-manager operation returns its result, the
final world, and the list of observable mutation events it performed.
-/

namespace IconSys

/-- Compatible image sizes for Windows icons (`WindowsIconSize` in
`src/icon/sys/windows.rs`). -/
inductive WindowsIconSize where
  | Px16
  | Px20
  | Px24
  | Px32
  | Px40
  | Px48
  | Px64
  | Px256
deriving DecidableEq, Repr, Fintype

namespace WindowsIconSize

/-- `WindowsIconSize::NUM_SIZES`. -/
def NUM_SIZES : Nat := 8

/-- `WindowsIconSize::dimension`: the pixel dimension for this icon size. -/
def dimension : WindowsIconSize → Nat
  | .Px16 => 16
  | .Px20 => 20
  | .Px24 => 24
  | .Px32 => 32
  | .Px40 => 40
  | .Px48 => 48
  | .Px64 => 64
  | .Px256 => 256

/-- `WindowsIconSize::from_dimension`: the size tag for a given dimension, if
valid.  The Rust `match` over integer literals is embedded as the equivalent
chain of equality tests. -/
def from_dimension (d : Nat) : Option WindowsIconSize :=
  if d = 16 then some .Px16
  else if d = 20 then some .Px20
  else if d = 24 then some .Px24
  else if d = 32 then some .Px32
  else if d = 40 then some .Px40
  else if d = 48 then some .Px48
  else if d = 64 then some .Px64
  else if d = 256 then some .Px256
  else none

/-- `WindowsIconSize::all`: the eight defined sizes, in the order of the
source's array literal (ascending dimension). -/
def all : List WindowsIconSize :=
  [.Px16, .Px20, .Px24, .Px32, .Px40, .Px48, .Px64, .Px256]

end WindowsIconSize

/-- Model of `image::DynamicImage` as used by this crate: a width, a height
and the raw RGBA byte buffer returned by `as_bytes`.  (Pixel decoding beyond
the byte list is not needed by any operation of the repository.) -/
structure DynamicImage where
  width : Nat
  height : Nat
  bytes : List Nat
deriving DecidableEq, Repr

/-- `WindowsIconImage` (`src/icon/sys/windows.rs`): an individual image in a
Windows icon, a size tag plus image data. -/
structure WindowsIconImage where
  size : WindowsIconSize
  image : DynamicImage
deriving DecidableEq, Repr

/-- Model of `crate::icon::IconError`.  The Rust enum carries formatted
strings; the constructors here carry the data interpolated into those strings:
`iconSetDuplicate s` is `IconSet("Duplicate icon size: {s}")`,
`iconSetMissing l` is `IconSet("Missing sizes: {l}")`, and
`iconImageInvalidSize d` is `IconImage("Invalid size: {d}")`. -/
inductive IconError where
  | iconSetDuplicate (s : WindowsIconSize)
  | iconSetMissing (missing : List WindowsIconSize)
  | iconImageInvalidSize (d : Nat)
deriving DecidableEq, Repr

/-- One entry of the `BTreeMap<WindowsIconSize, WindowsIconImage>` backing a
`WindowsIconSet`. -/
abbrev IconMapEntry := WindowsIconSize × WindowsIconImage

/-- `BTreeMap::contains_key` on the assoc-list model of the map. -/
def mapContains (m : List IconMapEntry) (k : WindowsIconSize) : Bool :=
  m.any (fun p => p.1 == k)

/-- `BTreeMap::insert` on the assoc-list model: keys are kept in ascending
dimension order (the `Ord` of `WindowsIconSize` is derived from declaration
order, which coincides with ascending dimension); inserting an existing key
replaces its value. -/
def mapInsert (k : WindowsIconSize) (v : WindowsIconImage) :
    List IconMapEntry → List IconMapEntry
  | [] => [(k, v)]
  | (k', v') :: t =>
      if k.dimension < k'.dimension then (k, v) :: (k', v') :: t
      else if k = k' then (k, v) :: t
      else (k', v') :: mapInsert k v t

/-- `WindowsIconSet` (`src/icon/sys/windows.rs`): a Windows icon set composed
of individual sizes, backed by a `BTreeMap` modelled as a
dimension-sorted association list. -/
structure WindowsIconSet where
  images : List IconMapEntry
deriving DecidableEq, Repr

namespace WindowsIconSet

/-- Loop body of `WindowsIconSet::from_icons`: fold the input icons into the
map, failing on a duplicate size. -/
def fromIconsGo (images : List IconMapEntry) :
    List WindowsIconImage → Except IconError (List IconMapEntry)
  | [] => .ok images
  | icon :: rest =>
      if mapContains images icon.size then
        .error (.iconSetDuplicate icon.size)
      else
        fromIconsGo (mapInsert icon.size icon images) rest

/-- `WindowsIconSet::from_icons`: constructor from icons; must contain no
duplicates. -/
def from_icons (icons : List WindowsIconImage) : Except IconError WindowsIconSet :=
  match fromIconsGo [] icons with
  | .error e => .error e
  | .ok images => .ok ⟨images⟩

/-- `WindowsIconSet::add_image`: add or replace an image for a given size. -/
def add_image (s : WindowsIconSet) (icon : WindowsIconImage) : WindowsIconSet :=
  ⟨mapInsert icon.size icon s.images⟩

/-- `WindowsIconSet::missing_sizes`: the sizes of `all()` absent from the
map. -/
def missing_sizes (s : WindowsIconSet) : List WindowsIconSize :=
  WindowsIconSize.all.filter (fun z => !(mapContains s.images z))

/-- `WindowsIconSet::is_complete`: true if all standard sizes are present. -/
def is_complete (s : WindowsIconSet) : Bool :=
  s.missing_sizes.isEmpty

/-- `WindowsIconSet::get_image`. -/
def get_image (s : WindowsIconSet) (z : WindowsIconSize) : Option WindowsIconImage :=
  (s.images.find? (fun p => p.1 == z)).map Prod.snd

/-- `WindowsIconSet::iter`: iteration over the `BTreeMap` yields entries in
ascending key order, which is the list itself in this model. -/
def iter (s : WindowsIconSet) : List IconMapEntry :=
  s.images

end WindowsIconSet

/-- `crate::api::IconImage`: individual size of a system icon. -/
structure IconImage where
  data : DynamicImage
deriving DecidableEq, Repr

/-- `crate::api::IconSet`: platform-agnostic system icon image set. -/
structure IconSet where
  images : List IconImage
deriving DecidableEq, Repr

/-- `TryFrom<&IconImage> for WindowsIconImage`: derive the size tag from the
image's pixel width; an unrecognized width is an error. -/
def WindowsIconImage.tryFrom (i : IconImage) : Except IconError WindowsIconImage :=
  match WindowsIconSize.from_dimension i.data.width with
  | none => .error (.iconImageInvalidSize i.data.width)
  | some size => .ok ⟨size, i.data⟩

/-- The `collect::<Result<Vec<_>, _>>()` step of
`TryFrom<&IconSet> for WindowsIconSet`: convert every image, failing on the
first error. -/
def tryFromAll : List IconImage → Except IconError (List WindowsIconImage)
  | [] => .ok []
  | i :: rest =>
      match WindowsIconImage.tryFrom i with
      | .error e => .error e
      | .ok w =>
          match tryFromAll rest with
          | .error e => .error e
          | .ok ws => .ok (w :: ws)

/-- `TryFrom<&IconSet> for WindowsIconSet`: convert each image, build the set,
then require completeness (reporting the missing sizes otherwise). -/
def WindowsIconSet.tryFrom (s : IconSet) : Except IconError WindowsIconSet :=
  match tryFromAll s.images with
  | .error e => .error e
  | .ok icons =>
      match WindowsIconSet.from_icons icons with
      | .error e => .error e
      | .ok ws =>
          if ws.is_complete then .ok ws
          else .error (.iconSetMissing ws.missing_sizes)

/-! ## File names and the stale-file matcher -/

/-- Split a character list at its **last** dot: `lastDotSplit cs = some (stem,
ext)` when `cs = stem ++ '.' :: ext` and `ext` is dot-free; `none` when `cs`
has no dot.  Auxiliary for the model of `Path::extension`. -/
def lastDotSplit : List Char → Option (List Char × List Char)
  | [] => none
  | c :: rest =>
      match lastDotSplit rest with
      | some (stem, ext) => some (c :: stem, ext)
      | none => if c = '.' then some ([], rest) else none

/-- Model of Rust `Path::extension` applied to a bare file name: the portion
after the last dot, unless the part before that dot is empty (a leading-dot
file such as `".ico"` has no extension). -/
def fileExtension (name : String) : Option String :=
  match lastDotSplit name.data with
  | some (stem, ext) => if stem = [] then none else some ⟨ext⟩
  | none => none

/-- The filter of `find_existing_ico`
(`src/folder_settings/sys/windows/folder_settings_provider.rs`): the entry's
extension is `"ico"` and its file name starts with the configured prefix
(`str::starts_with`, modelled as character-list prefix). -/
def matchesGenerated (pfx name : String) : Bool :=
  (fileExtension name == some "ico") && List.isPrefixOf pfx.data name.data

/-! ## Container encoder (`to_ico_frames`, `encode_to_system`) -/

/-- Model of `image::ExtendedColorType` restricted to the variant this crate
uses. -/
inductive ExtendedColorType where
  | rgba8
deriving DecidableEq, Repr

/-- Model of `image::error::ImageError` as produced by `IcoFrame::as_png`: the
raw buffer's length does not match the declared dimensions. -/
inductive ImageError where
  | dimensionMismatch (len w h : Nat)
deriving DecidableEq, Repr

/-- PNG compression performed by the external `image` crate inside
`IcoFrame::as_png`.  The compressed byte stream itself is opaque to this
repository, so the model keeps the source bytes; the claims concern only the
frame count, declared dimensions, color type and order. -/
def pngEncode (bytes : List Nat) : List Nat :=
  bytes

/-- Model of `image::codecs::ico::IcoFrame`: a PNG-compressed payload plus the
declared width, height and color type of the frame. -/
structure IcoFrame where
  png : List Nat
  width : Nat
  height : Nat
  colorType : ExtendedColorType
deriving DecidableEq, Repr

/-- `IcoFrame::as_png(buf, w, h, Rgba8)`: PNG-encode the buffer into a frame;
fails when the buffer length does not match `w * h * 4` bytes (RGBA8). -/
def icoFrameAsPng (buf : List Nat) (w h : Nat) (ct : ExtendedColorType) :
    Except ImageError IcoFrame :=
  if buf.length = w * h * 4 then .ok ⟨pngEncode buf, w, h, ct⟩
  else .error (.dimensionMismatch buf.length w h)

/-- The `try_fold` of `to_ico_frames`: build a frame for each map entry in
iteration order, pushing onto the accumulator, stopping at the first error. -/
def toIcoFramesAux (acc : List IcoFrame) :
    List IconMapEntry → Except ImageError (List IcoFrame)
  | [] => .ok acc
  | (res, img) :: rest =>
      match icoFrameAsPng img.image.bytes res.dimension res.dimension .rgba8 with
      | .error e => .error e
      | .ok fr => toIcoFramesAux (acc ++ [fr]) rest

/-- `to_ico_frames`
(`src/folder_settings/sys/windows/folder_settings_provider.rs`): convert the
set's RGBA bitmaps to individual `.ico` frames, one per present size, in map
iteration order. -/
def to_ico_frames (s : WindowsIconSet) : Except ImageError (List IcoFrame) :=
  toIcoFramesAux [] s.iter

/-! ## Folder settings manager -/

/-- Model of `WindowsFolderSettingsError`.  The source's
`IconOperation(path, msg)` variants are distinguished here by the data behind
the formatted message; the path argument is implicit (the model tracks a
single target directory).  `win32` stands for any `Win32`/`Error` variant
carrying an OS status.  `encodeImagesCount n` is the `Error(e.to_string())`
produced in `encode_and_write_ico` when `IcoEncoder::encode_images` rejects a
frame list whose length `n` is outside `1..=65535`. -/
inductive WindowsFolderSettingsError where
  | win32
  | providerUnknownSize (d : Nat)
  | dirDoesNotExist
  | pathNotDirectory
  | folderIsKnownFolder
  | encodeFailure (e : ImageError)
  | encodeImagesCount (n : Nat)
  | iconError (e : IconError)
deriving DecidableEq, Repr

/-- Model of `FolderSettingsError` (`src/folder_settings/error.rs`). -/
inductive FolderSettingsError where
  | windows (e : WindowsFolderSettingsError)
  | iconError (e : IconError)
deriving DecidableEq, Repr

/-- Observable filesystem / shell-metadata mutation events performed by a
settings-manager call, in order of occurrence.  `encoderRan c` records that
the container encoder was invoked, receiving a set whose `is_complete()` was
`c`. -/
inductive Ev where
  | removedFile (name : String)
  | encoderRan (complete : Bool)
  | wroteFile (name : String)
  | setPointer (name : String)
  | clearedPointer
deriving DecidableEq, Repr

/-- State of the target directory and its shell metadata: whether the path
exists, whether it is a directory, whether the known-folder manager resolves
it as a registered special folder, the directory entries (file names in
`read_dir` order), and the shell's per-folder icon-file pointer. -/
structure World where
  pathExists : Bool
  isDir : Bool
  isKnownFolder : Bool
  entries : List String
  iconPointer : Option String
deriving DecidableEq, Repr

/-- `WindowsFolderSettingsProvider`: `blockKnownFolders` models
`com_known_folder_manager.is_some()`. -/
structure WindowsFolderSettingsProvider where
  blockKnownFolders : Bool
  generated_icon_prefix : String
deriving DecidableEq, Repr

namespace WindowsFolderSettingsProvider

/-- `validate_folder`: the directory must exist, must be a directory, and —
when the known-folder manager is present — must not be a known folder.  Pure
checks, in source order; no state is modified. -/
def validate_folder (p : WindowsFolderSettingsProvider) (w : World) :
    Except WindowsFolderSettingsError Unit :=
  if !w.pathExists then .error .dirDoesNotExist
  else if !w.isDir then .error .pathNotDirectory
  else if p.blockKnownFolders && w.isKnownFolder then .error .folderIsKnownFolder
  else .ok ()

/-- `find_existing_ico`: the first directory entry whose extension is `"ico"`
and whose file name starts with the configured prefix, if any. -/
def find_existing_ico (p : WindowsFolderSettingsProvider) (entries : List String) :
    Option String :=
  entries.find? (matchesGenerated p.generated_icon_prefix)

/-- `remove_existing_generated_ico`: remove the file found by
`find_existing_ico`, if any.  Returns the new entry list and the removal
events. -/
def remove_existing_generated_ico (p : WindowsFolderSettingsProvider)
    (entries : List String) : List String × List Ev :=
  match p.find_existing_ico entries with
  | none => (entries, [])
  | some f => (entries.erase f, [.removedFile f])

/-- `generate_unique_ico_file_name`: `"{prefix}-{uuid}.ico"`; the random
UUID is supplied as an explicit argument of the model. -/
def generate_unique_ico_file_name (p : WindowsFolderSettingsProvider)
    (uuid : String) : String :=
  p.generated_icon_prefix ++ "-" ++ uuid ++ ".ico"

end WindowsFolderSettingsProvider

/-- `File::create` + write inside `encode_and_write_ico`: creating a file adds
a directory entry (truncating, not duplicating, when the name already
exists). -/
def writeFile (entries : List String) (name : String) : List String :=
  if name ∈ entries then entries else entries ++ [name]

/-- `set_icon_for_folder_windows`
(`src/folder_settings/sys/windows/folder_settings_provider.rs`): validate the
folder, remove any existing generated `.ico`, generate a fresh file name,
encode the set to that file, and point the shell at it.  `encode_to_system`
is `to_ico_frames`, then `encode_and_write_ico` (`File::create` — which
creates the directory entry — followed by `IcoEncoder::encode_images`, which
deterministically rejects a frame list whose length is outside `1..=65535`,
mapped to `WindowsFolderSettingsError::Error` and modelled as
`encodeImagesCount`), then attribute marking.  Returns the call status, the
final world, and the mutation events in order.  OS-level I/O failures of the
filesystem/shell/attribute calls themselves are not modelled (the claims
under verification do not depend on them). -/
def set_icon_for_folder_windows (p : WindowsFolderSettingsProvider) (w : World)
    (icon_set : WindowsIconSet) (uuid : String) :
    Except WindowsFolderSettingsError Unit × World × List Ev :=
  match p.validate_folder w with
  | .error e => (.error e, w, [])
  | .ok () =>
      let rm := p.remove_existing_generated_ico w.entries
      let w1 : World := { w with entries := rm.1 }
      let name := p.generate_unique_ico_file_name uuid
      match to_ico_frames icon_set with
      | .error e =>
          (.error (.encodeFailure e), w1, rm.2 ++ [.encoderRan icon_set.is_complete])
      | .ok frames =>
          let w2 : World := { w1 with entries := writeFile w1.entries name }
          if frames.length < 1 ∨ 65535 < frames.length then
            (.error (.encodeImagesCount frames.length), w2,
              rm.2 ++ [.encoderRan icon_set.is_complete, .wroteFile name])
          else
            let w3 : World := { w2 with iconPointer := some name }
            (.ok (), w3,
              rm.2 ++ [.encoderRan icon_set.is_complete, .wroteFile name, .setPointer name])

/-- `reset_icon_for_folder_windows`: validate, clear the shell icon pointer
(`clear_folder_icon_settings`), then remove any existing generated `.ico`. -/
def reset_icon_for_folder_windows (p : WindowsFolderSettingsProvider) (w : World) :
    Except WindowsFolderSettingsError Unit × World × List Ev :=
  match p.validate_folder w with
  | .error e => (.error e, w, [])
  | .ok () =>
      let w1 : World := { w with iconPointer := none }
      let rm := p.remove_existing_generated_ico w1.entries
      let w2 : World := { w1 with entries := rm.1 }
      (.ok (), w2, [.clearedPointer] ++ rm.2)

/-- `set_icon_for_folder` (the generic `FolderSettingsProvider` impl): convert
the platform-agnostic set via `WindowsIconSet::try_from` — which enforces
completeness — then delegate to `set_icon_for_folder_windows`.  Errors are
wrapped into `FolderSettingsError` as by the source's `From` impls. -/
def set_icon_for_folder (p : WindowsFolderSettingsProvider) (w : World)
    (icon_set : IconSet) (uuid : String) :
    Except FolderSettingsError Unit × World × List Ev :=
  match WindowsIconSet.tryFrom icon_set with
  | .error e => (.error (.iconError e), w, [])
  | .ok ws =>
      match set_icon_for_folder_windows p w ws uuid with
      | (.error e, w', evs) => (.error (.windows e), w', evs)
      | (.ok (), w', evs) => (.ok (), w', evs)

/-! ## Default-icon extraction (`load_icon_set_from_shell32`) -/

/-- Environment describing the outcome of the Win32 calls made for one icon
directory entry: the `load_specific_icon` resource chain, `GetIconInfo`,
`GetObjectW`, and `GetDIBits`, plus the bitmap dimensions reported by
`GetObjectW` and the raw (device-order, BGRA) pixel buffer filled in by
`GetDIBits`. -/
structure EntryEnv where
  loadIconOk : Bool
  iconInfoOk : Bool
  getObjectOk : Bool
  dibitsOk : Bool
  width : Nat
  height : Nat
  pixels : List Nat
deriving DecidableEq, Repr

/-- Environment for one extraction call: outcomes of the pre-loop Win32 calls
(`LoadLibraryExW`, `FindResourceW`, `LoadResource`, `LockResource`,
`CreateCompatibleDC`, final `DeleteDC`) and the parsed icon directory. -/
structure ExtractEnv where
  loadDllOk : Bool
  findGroupOk : Bool
  loadResOk : Bool
  lockResOk : Bool
  createDCOk : Bool
  deleteDCOk : Bool
  entries : List EntryEnv
deriving DecidableEq, Repr

/-- The per-pixel channel reordering of `load_icon_set_from_shell32`
(`for chunk in pixels.chunks_exact_mut(4)`): every exact 4-byte chunk
`[b, g, r, a]` becomes `[r, g, b, a]`; a remainder shorter than 4 bytes is
left untouched, as by `chunks_exact_mut`. -/
def bgraToRgba : List Nat → List Nat
  | b :: g :: r :: a :: rest => r :: g :: b :: a :: bgraToRgba rest
  | other => other

/-- The `for item in icon_directory` loop of `load_icon_set_from_shell32`:
process each directory entry in order, pushing the converted image, returning
the first error.  Failure cases in source order: the `load_specific_icon`
resource chain, `GetIconInfo`, `GetObjectW` returning 0, `GetDIBits` copying 0
lines, and an unrecognized bitmap width. -/
def extractLoop (acc : List WindowsIconImage) :
    List EntryEnv → Except WindowsFolderSettingsError (List WindowsIconImage)
  | [] => .ok acc
  | e :: rest =>
      if !e.loadIconOk then .error .win32
      else if !e.iconInfoOk then .error .win32
      else if !e.getObjectOk then .error .win32
      else if !e.dibitsOk then .error .win32
      else
        match WindowsIconSize.from_dimension e.width with
        | none => .error (.providerUnknownSize e.width)
        | some size =>
            extractLoop
              (acc ++ [⟨size, ⟨e.width, e.height, bgraToRgba e.pixels⟩⟩]) rest

/-- `load_icon_set_from_shell32`
(`src/folder_settings/sys/windows/default_folder_icon_provider.rs`), with the
rendering-context bookkeeping made explicit: the result is paired with the
number of times the device context was acquired (`CreateCompatibleDC`
succeeded) and the number of times it was released (`DeleteDC` succeeded).
The source releases the context only after the entry loop, so an error inside
the loop returns with the context still acquired. -/
def load_icon_set_from_shell32 (env : ExtractEnv) :
    Except WindowsFolderSettingsError WindowsIconSet × Nat × Nat :=
  if !env.loadDllOk then (.error .win32, 0, 0)
  else if !env.findGroupOk then (.error .win32, 0, 0)
  else if !env.loadResOk then (.error .win32, 0, 0)
  else if !env.lockResOk then (.error .win32, 0, 0)
  else if !env.createDCOk then (.error .win32, 0, 0)
  else
    match extractLoop [] env.entries with
    | .error e => (.error e, 1, 0)
    | .ok icons =>
        if !env.deleteDCOk then (.error .win32, 1, 0)
        else
          match WindowsIconSet.from_icons icons with
          | .error e => (.error (.iconError e), 1, 1)
          | .ok s => (.ok s, 1, 1)

/-! ## Basic facts about the icon map -/

/-- Membership in the map after an insertion: the inserted key, or a key that
was already present. -/
theorem mapContains_mapInsert (m : List IconMapEntry) (k : WindowsIconSize)
    (v : WindowsIconImage) (z : WindowsIconSize) :
    mapContains (mapInsert k v m) z = ((k == z) || mapContains m z) := by
  induction m with
  | nil => simp [mapInsert, mapContains]
  | cons hd t ih =>
      obtain ⟨k', v'⟩ := hd
      simp only [mapInsert]
      split_ifs with h1 h2
      · simp [mapContains, List.any_cons]
      · subst h2
        simp [mapContains, List.any_cons, Bool.or_assoc, Bool.or_comm, Bool.or_left_comm]
      · simp only [mapContains, List.any_cons] at ih ⊢
        rw [ih]
        simp [Bool.or_assoc, Bool.or_comm, Bool.or_left_comm]

/-- Every element of `mapInsert k v m` is either the inserted pair or an
element of `m`. -/
theorem mem_mapInsert {q : IconMapEntry} {m : List IconMapEntry}
    {k : WindowsIconSize} {v : WindowsIconImage} (h : q ∈ mapInsert k v m) :
    q = (k, v) ∨ q ∈ m := by
  induction m with
  | nil => simpa [mapInsert] using h
  | cons hd t ih =>
      obtain ⟨k', v'⟩ := hd
      by_cases h1 : k.dimension < k'.dimension
      · rw [mapInsert, if_pos h1] at h
        rcases List.mem_cons.mp h with h' | h'
        · exact Or.inl h'
        · exact Or.inr h'
      · by_cases h2 : k = k'
        · rw [mapInsert, if_neg h1, if_pos h2] at h
          rcases List.mem_cons.mp h with h' | h'
          · exact Or.inl h'
          · exact Or.inr (List.mem_cons_of_mem _ h')
        · rw [mapInsert, if_neg h1, if_neg h2] at h
          rcases List.mem_cons.mp h with h' | h'
          · exact Or.inr (h' ▸ List.mem_cons_self _ _)
          · rcases ih h' with h'' | h''
            · exact Or.inl h''
            · exact Or.inr (List.mem_cons_of_mem _ h'')

/-- The dimension map of the size catalog is injective. -/
theorem dimension_injective :
    ∀ a b : WindowsIconSize, a.dimension = b.dimension → a = b := by decide

/-- Strict ascending-dimension order on map entries (the order maintained by
the `BTreeMap` model). -/
def pairLt (p q : IconMapEntry) : Prop :=
  p.1.dimension < q.1.dimension

/-- Insertion preserves the ascending order of the map. -/
theorem pairwise_mapInsert {m : List IconMapEntry}
    (k : WindowsIconSize) (v : WindowsIconImage) (hs : m.Pairwise pairLt) :
    (mapInsert k v m).Pairwise pairLt := by
  induction m with
  | nil => simp [mapInsert, pairLt]
  | cons hd t ih =>
      obtain ⟨k', v'⟩ := hd
      rw [List.pairwise_cons] at hs
      obtain ⟨hhd, htl⟩ := hs
      simp only [mapInsert]
      split_ifs with h1 h2
      · refine List.Pairwise.cons ?_ (List.Pairwise.cons hhd htl)
        intro q hq
        rcases List.mem_cons.mp hq with rfl | hq
        · exact h1
        · exact lt_trans h1 (hhd q hq)
      · exact List.Pairwise.cons (h2 ▸ hhd) htl
      · have hlt : k'.dimension < k.dimension := by
          rcases Nat.lt_or_ge k'.dimension k.dimension with h | h
          · exact h
          · exact absurd (Nat.le_antisymm (Nat.le_of_not_lt h1) h)
              (fun hd => h2 (dimension_injective _ _ hd.symm))
        refine List.Pairwise.cons ?_ (ih htl)
        intro q hq
        rcases mem_mapInsert hq with h' | h'
        · exact h' ▸ hlt
        · exact hhd q h'

/-! ## Facts about `from_icons` -/

/-- Success of the `from_icons` fold: when the input sizes are duplicate-free
and disjoint from the accumulator, the fold succeeds and the resulting map
contains exactly the old keys plus the inserted sizes. -/
theorem fromIconsGo_ok :
    ∀ (icons : List WindowsIconImage) (m : List IconMapEntry),
      (icons.map WindowsIconImage.size).Nodup →
      (∀ i ∈ icons, mapContains m i.size = false) →
      ∃ l, WindowsIconSet.fromIconsGo m icons = .ok l ∧
        (∀ z, mapContains l z =
          (mapContains m z || icons.any (fun i => i.size == z))) := by
  intro icons
  induction icons with
  | nil =>
      intro m _ _
      exact ⟨m, rfl, by simp⟩
  | cons icon rest ih =>
      intro m hnd hdisj
      rw [List.map_cons, List.nodup_cons] at hnd
      obtain ⟨hhd, hrest⟩ := hnd
      have hmem : mapContains m icon.size = false :=
        hdisj icon (List.mem_cons_self _ _)
      have hdisj' : ∀ i ∈ rest, mapContains (mapInsert icon.size icon m) i.size = false := by
        intro i hi
        rw [mapContains_mapInsert]
        have h1 : (icon.size == i.size) = false := by
          cases hb : icon.size == i.size with
          | false => rfl
          | true =>
              exact absurd (List.mem_map_of_mem WindowsIconImage.size hi)
                (by rw [← eq_of_beq hb]; exact hhd)
        rw [h1, hdisj i (List.mem_cons_of_mem _ hi)]
        rfl
      obtain ⟨l, hl, hcont⟩ := ih (mapInsert icon.size icon m) hrest hdisj'
      refine ⟨l, ?_, ?_⟩
      · simpa [WindowsIconSet.fromIconsGo, hmem] using hl
      · intro z
        rw [hcont z, mapContains_mapInsert]
        simp [List.any_cons, Bool.or_assoc, Bool.or_comm, Bool.or_left_comm]

/-- Failure of the `from_icons` fold: a size collision (with the accumulator
or inside the input) yields a duplicate-size error naming a size of the
input. -/
theorem fromIconsGo_err :
    ∀ (icons : List WindowsIconImage) (m : List IconMapEntry),
      ((∃ i ∈ icons, mapContains m i.size = true) ∨
        ¬(icons.map WindowsIconImage.size).Nodup) →
      ∃ s, WindowsIconSet.fromIconsGo m icons = .error (.iconSetDuplicate s) ∧
        s ∈ icons.map WindowsIconImage.size := by
  intro icons
  induction icons with
  | nil =>
      intro m h
      rcases h with ⟨i, hi, _⟩ | h
      · exact absurd hi (List.not_mem_nil i)
      · exact absurd List.nodup_nil h
  | cons icon rest ih =>
      intro m h
      rcases hmem : mapContains m icon.size with _ | _
      · have h' : (∃ i ∈ rest, mapContains (mapInsert icon.size icon m) i.size = true) ∨
            ¬(rest.map WindowsIconImage.size).Nodup := by
          rcases h with ⟨i, hi, hic⟩ | hnd
          · rcases List.mem_cons.mp hi with rfl | hi
            · exact absurd hic (by rw [hmem]; exact Bool.false_ne_true)
            · refine Or.inl ⟨i, hi, ?_⟩
              rw [mapContains_mapInsert, hic]
              simp
          · rw [List.map_cons, List.nodup_cons] at hnd
            rcases not_and_or.mp hnd with hdup | hnd'
            · rw [not_not] at hdup
              obtain ⟨i, hi, hsz⟩ := List.mem_map.mp hdup
              refine Or.inl ⟨i, hi, ?_⟩
              rw [mapContains_mapInsert, hsz, beq_self_eq_true]
              rfl
            · exact Or.inr hnd'
        obtain ⟨s, hs, hsm⟩ := ih (mapInsert icon.size icon m) h'
        refine ⟨s, ?_, List.mem_cons_of_mem _ hsm⟩
        simpa [WindowsIconSet.fromIconsGo, hmem] using hs
      · refine ⟨icon.size, ?_, List.mem_cons_self _ _⟩
        simp [WindowsIconSet.fromIconsGo, hmem]

/-- The map produced by the `from_icons` fold is sorted and its entries come
from the accumulator or from the input (keyed by their own size). -/
theorem fromIconsGo_invariants :
    ∀ (icons : List WindowsIconImage) (m l : List IconMapEntry),
      WindowsIconSet.fromIconsGo m icons = .ok l →
      m.Pairwise pairLt →
      (l.Pairwise pairLt ∧
        ∀ q ∈ l, q ∈ m ∨ (q.1 = q.2.size ∧ q.2 ∈ icons)) := by
  intro icons
  induction icons with
  | nil =>
      intro m l h hs
      obtain rfl : m = l := by simpa [WindowsIconSet.fromIconsGo] using h
      exact ⟨hs, fun q hq => Or.inl hq⟩
  | cons icon rest ih =>
      intro m l h hs
      rcases hmem : mapContains m icon.size with _ | _
      · rw [WindowsIconSet.fromIconsGo, hmem] at h
        simp only [Bool.false_eq_true, if_false] at h
        obtain ⟨hl, hq⟩ := ih (mapInsert icon.size icon m) l h
          (pairwise_mapInsert _ _ hs)
        refine ⟨hl, fun q hql => ?_⟩
        rcases hq q hql with h' | h'
        · rcases mem_mapInsert h' with h'' | h''
          · exact Or.inr ⟨by rw [h''], by rw [h'']; exact List.mem_cons_self _ _⟩
          · exact Or.inl h''
        · exact Or.inr ⟨h'.1, List.mem_cons_of_mem _ h'.2⟩
      · rw [WindowsIconSet.fromIconsGo, hmem] at h
        simp at h

/-! ## Claim theorems: the size catalog and the set model -/

/-- **C8.** For every canonical dimension `d` in
`{16, 20, 24, 32, 40, 48, 64, 256}`, `from_dimension d` returns a size tag
whose `dimension` equals `d`; for every other 32-bit integer it returns
`none`; and `from_dimension` inverts `dimension` on every tag. -/
theorem c8_dimension_bijection :
    (∀ s : WindowsIconSize, WindowsIconSize.from_dimension s.dimension = some s) ∧
    (∀ d : Nat, d ∈ ([16, 20, 24, 32, 40, 48, 64, 256] : List Nat) →
      ∃ s, WindowsIconSize.from_dimension d = some s ∧ s.dimension = d) ∧
    (∀ d : Nat, d < 2 ^ 32 → d ∉ ([16, 20, 24, 32, 40, 48, 64, 256] : List Nat) →
      WindowsIconSize.from_dimension d = none) := by
  refine ⟨by decide, ?_, ?_⟩
  · intro d hd
    fin_cases hd
    · exact ⟨.Px16, rfl, rfl⟩
    · exact ⟨.Px20, rfl, rfl⟩
    · exact ⟨.Px24, rfl, rfl⟩
    · exact ⟨.Px32, rfl, rfl⟩
    · exact ⟨.Px40, rfl, rfl⟩
    · exact ⟨.Px48, rfl, rfl⟩
    · exact ⟨.Px64, rfl, rfl⟩
    · exact ⟨.Px256, rfl, rfl⟩
  · intro d _ hd
    simp only [List.mem_cons, List.not_mem_nil, or_false, not_or] at hd
    obtain ⟨h1, h2, h3, h4, h5, h6, h7, h8⟩ := hd
    simp [WindowsIconSize.from_dimension, h1, h2, h3, h4, h5, h6, h7, h8]

/-- Witness for C8 at concrete dimensions. -/
theorem c8_dimension_bijection_witness :
    (∃ s, WindowsIconSize.from_dimension 256 = some s ∧ s.dimension = 256) ∧
    WindowsIconSize.from_dimension 30 = none := by
  exact ⟨c8_dimension_bijection.2.1 256 (by decide),
    c8_dimension_bijection.2.2 30 (by decide) (by decide)⟩

/-- **C7.** Whenever two input images carry the same size tag,
`from_icons` fails with a duplicate-size error (naming a size of the input),
regardless of insertion order, and no `WindowsIconSet` is constructed. -/
theorem c7_duplicate_size_error (icons : List WindowsIconImage)
    (h : ¬(icons.map WindowsIconImage.size).Nodup) :
    ∃ s, WindowsIconSet.from_icons icons = .error (.iconSetDuplicate s) ∧
      s ∈ icons.map WindowsIconImage.size := by
  obtain ⟨s, hs, hsm⟩ := fromIconsGo_err icons [] (Or.inr h)
  exact ⟨s, by simp [WindowsIconSet.from_icons, hs], hsm⟩

/-- Witness for C7: two images tagged `Px16` make `from_icons` fail. -/
theorem c7_duplicate_size_error_witness :
    ∃ s, WindowsIconSet.from_icons
        [⟨.Px16, ⟨16, 16, []⟩⟩, ⟨.Px16, ⟨16, 16, []⟩⟩] =
        .error (.iconSetDuplicate s) ∧
      s ∈ ([.Px16, .Px16] : List WindowsIconSize) := by
  exact c7_duplicate_size_error
    [⟨.Px16, ⟨16, 16, []⟩⟩, ⟨.Px16, ⟨16, 16, []⟩⟩] (by decide)

/-- **C9.** A duplicate-free input covering all eight canonical sizes builds a
set with `is_complete = true` and `missing_sizes = []`; and for every set,
`missing_sizes` contains exactly the canonical sizes absent from the map, in
ascending-dimension order, with `is_complete` true iff that list is empty. -/
theorem c9_completeness_and_missing :
    (∀ icons : List WindowsIconImage,
      (icons.map WindowsIconImage.size).Nodup →
      (∀ z : WindowsIconSize, icons.any (fun i => i.size == z) = true) →
      ∃ s, WindowsIconSet.from_icons icons = .ok s ∧
        s.is_complete = true ∧ s.missing_sizes = []) ∧
    (∀ s : WindowsIconSet,
      (∀ z, z ∈ s.missing_sizes ↔
        (z ∈ WindowsIconSize.all ∧ mapContains s.images z = false)) ∧
      List.Sorted (fun a b : WindowsIconSize => a.dimension < b.dimension)
        s.missing_sizes ∧
      (s.is_complete = true ↔ s.missing_sizes = [])) := by
  constructor
  · intro icons hnd hcov
    obtain ⟨l, hl, hcont⟩ := fromIconsGo_ok icons [] hnd (by intro i _; rfl)
    have hmiss : WindowsIconSet.missing_sizes ⟨l⟩ = [] := by
      rw [WindowsIconSet.missing_sizes, List.filter_eq_nil_iff]
      intro z _
      have := hcont z
      rw [hcov z] at this
      simp only [mapContains] at this ⊢
      simp [this]
    refine ⟨⟨l⟩, by simp [WindowsIconSet.from_icons, hl], ?_, hmiss⟩
    rw [WindowsIconSet.is_complete, hmiss]
    rfl
  · intro s
    refine ⟨?_, ?_, ?_⟩
    · intro z
      rw [WindowsIconSet.missing_sizes, List.mem_filter]
      simp
    · exact List.Pairwise.filter _ (by decide)
    · rw [WindowsIconSet.is_complete, List.isEmpty_iff]

/-- Witness for C9: a complete concrete input set. -/
theorem c9_completeness_and_missing_witness :
    ∃ s, WindowsIconSet.from_icons
        (WindowsIconSize.all.map (fun z => ⟨z, ⟨z.dimension, z.dimension, []⟩⟩)) =
        .ok s ∧ s.is_complete = true ∧ s.missing_sizes = [] := by
  exact c9_completeness_and_missing.1
    (WindowsIconSize.all.map (fun z => ⟨z, ⟨z.dimension, z.dimension, []⟩⟩))
    (by decide) (by decide)

/-! ## Claim theorems: channel reordering (extractor) -/

/-- Channel reordering preserves the buffer length (the Rust loop mutates the
buffer in place). -/
theorem bgraToRgba_length : ∀ buf : List Nat, (bgraToRgba buf).length = buf.length := by
  intro buf
  induction buf using bgraToRgba.induct with
  | case1 b g r a rest ih => simp [bgraToRgba, ih]
  | case2 other h => simp [bgraToRgba]
    -- the fallback pattern covers lists shorter than 4

/-- Optional indexing past four leading elements. -/
theorem skipFourEntries (x0 x1 x2 x3 : Nat) (l : List Nat) (m : Nat) :
    (x0 :: x1 :: x2 :: x3 :: l)[m + 4]? = l[m]? := by
  show (x0 :: x1 :: x2 :: x3 :: l)[(((m + 1) + 1) + 1) + 1]? = l[m]?
  rw [List.getElem?_cons_succ, List.getElem?_cons_succ, List.getElem?_cons_succ,
    List.getElem?_cons_succ]

/-- Pointwise content of the channel reordering on each full 4-byte chunk. -/
theorem bgraToRgba_chunk :
    ∀ (i : Nat) (buf : List Nat), 4 * i + 4 ≤ buf.length →
      (bgraToRgba buf)[4 * i]? = buf[4 * i + 2]? ∧
      (bgraToRgba buf)[4 * i + 1]? = buf[4 * i + 1]? ∧
      (bgraToRgba buf)[4 * i + 2]? = buf[4 * i]? ∧
      (bgraToRgba buf)[4 * i + 3]? = buf[4 * i + 3]? := by
  intro i
  induction i with
  | zero =>
      intro buf hlen
      match buf, hlen with
      | b :: g :: r :: a :: rest, _ =>
          simp [bgraToRgba]
  | succ n ih =>
      intro buf hlen
      match buf, hlen with
      | b :: g :: r :: a :: rest, hlen =>
          have hrest : 4 * n + 4 ≤ rest.length := by
            simp only [List.length_cons] at hlen
            omega
          obtain ⟨e0, e1, e2, e3⟩ := ih rest hrest
          rw [show bgraToRgba (b :: g :: r :: a :: rest) =
              r :: g :: b :: a :: bgraToRgba rest from rfl]
          refine ⟨?_, ?_, ?_, ?_⟩
          · rw [show 4 * (n + 1) = 4 * n + 4 by ring, skipFourEntries,
              show 4 * n + 4 + 2 = (4 * n + 2) + 4 by ring, skipFourEntries]
            exact e0
          · rw [show 4 * (n + 1) + 1 = (4 * n + 1) + 4 by ring, skipFourEntries,
              skipFourEntries]
            exact e1
          · rw [show 4 * (n + 1) = 4 * n + 4 by ring,
              show 4 * n + 4 + 2 = (4 * n + 2) + 4 by ring, skipFourEntries,
              skipFourEntries]
            exact e2
          · rw [show 4 * (n + 1) + 3 = (4 * n + 3) + 4 by ring, skipFourEntries,
              skipFourEntries]
            exact e3

/-- **C5.** For every pixel buffer of length `width * height * 4`, the
extractor's channel-reordering step maps each 4-byte pixel `[b, g, r, a]` in
device order to `[r, g, b, a]` in place: after conversion, byte 0 of pixel `i`
is the original byte 2 (red), byte 1 is unchanged (green), byte 2 is the
original byte 0 (blue), byte 3 is unchanged (alpha), and the buffer length is
unchanged. -/
theorem c5_channel_reordering (w h : Nat) (buf : List Nat)
    (hlen : buf.length = w * h * 4) :
    (bgraToRgba buf).length = buf.length ∧
    ∀ i, i < w * h →
      (bgraToRgba buf)[4 * i]? = buf[4 * i + 2]? ∧
      (bgraToRgba buf)[4 * i + 1]? = buf[4 * i + 1]? ∧
      (bgraToRgba buf)[4 * i + 2]? = buf[4 * i]? ∧
      (bgraToRgba buf)[4 * i + 3]? = buf[4 * i + 3]? := by
  refine ⟨bgraToRgba_length buf, fun i hi => bgraToRgba_chunk i buf ?_⟩
  rw [hlen]
  omega

/-- Witness for C5 on a concrete 1x1 BGRA buffer. -/
theorem c5_channel_reordering_witness :
    (bgraToRgba [10, 20, 30, 40]).length = 4 ∧
    (bgraToRgba [10, 20, 30, 40])[0]? = some 30 ∧
    (bgraToRgba [10, 20, 30, 40])[2]? = some 10 := by
  obtain ⟨hl, hp⟩ := c5_channel_reordering 1 1 [10, 20, 30, 40] (by decide)
  obtain ⟨e0, _, e2, _⟩ := hp 0 (by decide)
  exact ⟨by simpa using hl, by simpa using e0, by simpa using e2⟩

/-! ## Claim theorems: stale-file cleanup -/

/-- Splitting at the last dot, below a dot-free suffix. -/
theorem lastDotSplit_append_ico (cs : List Char) :
    lastDotSplit (cs ++ ('.' :: ['i', 'c', 'o'])) = some (cs, ['i', 'c', 'o']) := by
  induction cs with
  | nil => rfl
  | cons c t ih => simp [lastDotSplit, ih]

/-- A name formed by appending `".ico"` to a nonempty stem has extension
`"ico"`. -/
theorem fileExtension_append_ico (s : String) (hs : s.data ≠ []) :
    fileExtension (s ++ ".ico") = some "ico" := by
  rw [fileExtension, String.data_append,
    show (".ico" : String).data = '.' :: ['i', 'c', 'o'] from rfl,
    lastDotSplit_append_ico]
  simp [hs]

/-- A name formed by appending to the prefix starts with the prefix. -/
theorem startsWith_self_append (pfx rest : String) :
    List.isPrefixOf pfx.data (pfx ++ rest).data = true := by
  rw [String.data_append, List.isPrefixOf_iff_prefix]
  exact List.prefix_append _ _

/-- Erasing an element satisfying `p` decrements `countP p` by exactly one. -/
theorem countP_erase_of_mem {p : String → Bool} (f : String) :
    ∀ l : List String, f ∈ l → p f = true →
      (l.erase f).countP p + 1 = l.countP p := by
  intro l
  induction l with
  | nil => intro h; exact absurd h (List.not_mem_nil f)
  | cons a t ih =>
      intro hmem hpf
      rw [List.erase_cons]
      by_cases hb : (a == f) = true
      · rw [if_pos hb, List.countP_cons, eq_of_beq hb, if_pos hpf]
      · rw [if_neg hb]
        have hft : f ∈ t := by
          rcases List.mem_cons.mp hmem with rfl | hm
          · exact absurd (beq_self_eq_true f) hb
          · exact hm
        rw [List.countP_cons, List.countP_cons, ← ih hft hpf]
        omega

/-- Erasing an element satisfying `p` leaves the sublist of elements violating
`p` untouched. -/
theorem filter_not_erase {p : String → Bool} (f : String) (hpf : p f = true) :
    ∀ l : List String,
      (l.erase f).filter (fun e => !(p e)) = l.filter (fun e => !(p e)) := by
  intro l
  induction l with
  | nil => rfl
  | cons a t ih =>
      rw [List.erase_cons]
      by_cases hb : (a == f) = true
      · rw [if_pos hb, List.filter_cons, eq_of_beq hb, hpf]
        simp
      · rw [if_neg hb, List.filter_cons, List.filter_cons, ih]

/-- **C10.** The stale-file cleanup (`find_existing_ico` +
`remove_existing_generated_ico`, run by both SetIcon and ResetIcon) removes at
most one file per call — the first directory entry whose extension is `"ico"`
and whose name starts with the configured prefix.  Files named
`<prefix>.ico` or `<prefix>extra.ico` match that criterion (so they are
eligible for deletion even though the manager never generates such names),
a second matching file in the directory survives the call, and non-matching
files are never touched. -/
theorem c10_cleanup_removes_first_match (p : WindowsFolderSettingsProvider)
    (hp : p.generated_icon_prefix.data ≠ []) :
    (matchesGenerated p.generated_icon_prefix
        (p.generated_icon_prefix ++ ".ico") = true) ∧
    (matchesGenerated p.generated_icon_prefix
        (p.generated_icon_prefix ++ "extra.ico") = true) ∧
    (∀ entries, p.find_existing_ico entries = none →
      p.remove_existing_generated_ico entries = (entries, [])) ∧
    (∀ entries f, p.find_existing_ico entries = some f →
      matchesGenerated p.generated_icon_prefix f = true ∧ f ∈ entries ∧
      p.remove_existing_generated_ico entries = (entries.erase f, [Ev.removedFile f])) ∧
    (∀ entries, 2 ≤ entries.countP (matchesGenerated p.generated_icon_prefix) →
      1 ≤ ((p.remove_existing_generated_ico entries).1).countP
        (matchesGenerated p.generated_icon_prefix)) ∧
    (∀ entries, ((p.remove_existing_generated_ico entries).1).filter
        (fun e => !(matchesGenerated p.generated_icon_prefix e)) =
      entries.filter (fun e => !(matchesGenerated p.generated_icon_prefix e))) := by
  have hico : matchesGenerated p.generated_icon_prefix
      (p.generated_icon_prefix ++ ".ico") = true := by
    rw [matchesGenerated, fileExtension_append_ico _ hp, startsWith_self_append]
    rfl
  have hextra : matchesGenerated p.generated_icon_prefix
      (p.generated_icon_prefix ++ "extra.ico") = true := by
    rw [matchesGenerated,
      show p.generated_icon_prefix ++ "extra.ico" =
        (p.generated_icon_prefix ++ "extra") ++ ".ico" by
          simp [String.ext_iff, String.data_append],
      fileExtension_append_ico _ (by
        intro hcontra
        rw [String.data_append] at hcontra
        exact absurd (List.append_eq_nil.mp hcontra).2 (by decide))]
    have : List.isPrefixOf p.generated_icon_prefix.data
        (p.generated_icon_prefix ++ ("extra" ++ ".ico")).data = true :=
      startsWith_self_append _ _
    rw [show (p.generated_icon_prefix ++ "extra") ++ ".ico" =
        p.generated_icon_prefix ++ ("extra" ++ ".ico") by
          simp [String.ext_iff, String.data_append], this]
    rfl
  refine ⟨hico, hextra, ?_, ?_, ?_, ?_⟩
  · intro entries hnone
    rw [WindowsFolderSettingsProvider.remove_existing_generated_ico, hnone]
  · intro entries f hsome
    exact ⟨List.find?_some hsome, List.mem_of_find?_eq_some hsome,
      by rw [WindowsFolderSettingsProvider.remove_existing_generated_ico, hsome]⟩
  · intro entries hcount
    rcases hfind : p.find_existing_ico entries with _ | f
    · rw [WindowsFolderSettingsProvider.remove_existing_generated_ico, hfind]
      show 1 ≤ entries.countP (matchesGenerated p.generated_icon_prefix)
      omega
    · rw [WindowsFolderSettingsProvider.remove_existing_generated_ico, hfind]
      have hc := countP_erase_of_mem f entries (List.mem_of_find?_eq_some hfind)
        (List.find?_some hfind)
      show 1 ≤ (entries.erase f).countP (matchesGenerated p.generated_icon_prefix)
      omega
  · intro entries
    rcases hfind : p.find_existing_ico entries with _ | f
    · rw [WindowsFolderSettingsProvider.remove_existing_generated_ico, hfind]
    · rw [WindowsFolderSettingsProvider.remove_existing_generated_ico, hfind]
      exact filter_not_erase f (List.find?_some hfind) entries

/-- Witness for C10 on a concrete directory. -/
theorem c10_cleanup_removes_first_match_witness :
    matchesGenerated "p" "p.ico" = true ∧
    matchesGenerated "p" "pextra.ico" = true ∧
    WindowsFolderSettingsProvider.remove_existing_generated_ico ⟨true, "p"⟩
      ["skip.txt", "p-a.ico", "p-b.ico"] =
      (["skip.txt", "p-b.ico"], [Ev.removedFile "p-a.ico"]) := by
  have h := c10_cleanup_removes_first_match ⟨true, "p"⟩ (by decide)
  refine ⟨h.1, h.2.1, ?_⟩
  have h4 := h.2.2.2.1 ["skip.txt", "p-a.ico", "p-b.ico"] "p-a.ico" (by decide)
  rw [h4.2.2]
  decide

/-! ## Claim theorems: the settings manager -/

/-- An invalid target (missing, not a directory, or protected known folder)
makes `validate_folder` fail. -/
theorem validate_folder_err (p : WindowsFolderSettingsProvider) (w : World)
    (h : w.pathExists = false ∨ w.isDir = false ∨
      (p.blockKnownFolders = true ∧ w.isKnownFolder = true)) :
    ∃ e, p.validate_folder w = .error e := by
  rcases hp : w.pathExists with _ | _
  · exact ⟨.dirDoesNotExist,
      by simp [WindowsFolderSettingsProvider.validate_folder, hp]⟩
  · rcases hd : w.isDir with _ | _
    · exact ⟨.pathNotDirectory,
        by simp [WindowsFolderSettingsProvider.validate_folder, hp, hd]⟩
    · rcases h with h | h | ⟨h1, h2⟩
      · rw [hp] at h; exact absurd h (by decide)
      · rw [hd] at h; exact absurd h (by decide)
      · exact ⟨.folderIsKnownFolder,
          by simp [WindowsFolderSettingsProvider.validate_folder, hp, hd, h1, h2]⟩

/-- **C3.** For every target that does not exist, is not a directory, or (with
known-folder protection enabled) resolves to a registered special folder,
SetIcon — through either entry point — returns an error while performing no
filesystem or shell-metadata mutation: the world is unchanged and the event
trace is empty. -/
theorem c3_validation_before_any_mutation (p : WindowsFolderSettingsProvider)
    (w : World) (ws : WindowsIconSet) (apiSet : IconSet) (uuid : String)
    (h : w.pathExists = false ∨ w.isDir = false ∨
      (p.blockKnownFolders = true ∧ w.isKnownFolder = true)) :
    (∃ e, set_icon_for_folder_windows p w ws uuid = (.error e, w, [])) ∧
    (∃ e', set_icon_for_folder p w apiSet uuid = (.error e', w, [])) := by
  obtain ⟨e, hv⟩ := validate_folder_err p w h
  refine ⟨⟨e, by simp [set_icon_for_folder_windows, hv]⟩, ?_⟩
  rcases ht : WindowsIconSet.tryFrom apiSet with e2 | ws2
  · exact ⟨.iconError e2, by simp [set_icon_for_folder, ht]⟩
  · exact ⟨.windows e,
      by simp [set_icon_for_folder, ht, set_icon_for_folder_windows, hv]⟩

/-- Witness for C3: a non-existent path is rejected without mutation. -/
theorem c3_validation_before_any_mutation_witness :
    (∃ e, set_icon_for_folder_windows ⟨true, "p"⟩
        ⟨false, true, false, ["keep.ico"], none⟩ ⟨[]⟩ "u" =
      (.error e, ⟨false, true, false, ["keep.ico"], none⟩, [])) ∧
    (∃ e', set_icon_for_folder ⟨true, "p"⟩
        ⟨false, true, false, ["keep.ico"], none⟩ ⟨[]⟩ "u" =
      (.error e', ⟨false, true, false, ["keep.ico"], none⟩, [])) :=
  c3_validation_before_any_mutation ⟨true, "p"⟩
    ⟨false, true, false, ["keep.ico"], none⟩ ⟨[]⟩ ⟨[]⟩ "u" (Or.inl rfl)

/-- The stale-file cleanup emits either no event or a single removal event. -/
theorem remove_trace_cases (p : WindowsFolderSettingsProvider)
    (entries : List String) :
    (p.remove_existing_generated_ico entries).2 = [] ∨
    ∃ f, (p.remove_existing_generated_ico entries).2 = [Ev.removedFile f] := by
  rw [WindowsFolderSettingsProvider.remove_existing_generated_ico]
  rcases p.find_existing_ico entries with _ | f
  · exact Or.inl rfl
  · exact Or.inr ⟨f, rfl⟩

/-- A Windows-level SetIcon call on a complete set never hands the encoder an
incomplete set (no `encoderRan false` event appears in its trace). -/
theorem encoderRan_false_not_mem (p : WindowsFolderSettingsProvider) (w : World)
    (ws : WindowsIconSet) (uuid : String) (hc : ws.is_complete = true) :
    Ev.encoderRan false ∉ (set_icon_for_folder_windows p w ws uuid).2.2 := by
  rcases hv : p.validate_folder w with e | u
  · simp [set_icon_for_folder_windows, hv]
  · obtain ⟨⟩ := u
    rcases hf : to_ico_frames ws with e2 | frames
    · rcases remove_trace_cases p w.entries with hrm | ⟨f, hrm⟩ <;>
        simp [set_icon_for_folder_windows, hv, hf, hrm, hc]
    · rcases remove_trace_cases p w.entries with hrm | ⟨f, hrm⟩ <;>
        (simp only [set_icon_for_folder_windows, hv, hf, hrm, hc]
         split <;> simp)

/-- **C1 (amended).** Through the generic `set_icon_for_folder` entry point an
incomplete set is rejected before the encoder runs and before any file is
written: `WindowsIconSet::try_from` only ever yields complete sets, a
conversion failure returns the error with the world unchanged and no mutation
events, and no trace of the generic entry point ever contains an
`encoderRan false` event.  (The Windows-specific entry point performs no such
check — see the counterexample.) -/
theorem c1_generic_rejects_incomplete (p : WindowsFolderSettingsProvider)
    (w : World) (apiSet : IconSet) (uuid : String) :
    (∀ ws, WindowsIconSet.tryFrom apiSet = .ok ws → ws.is_complete = true) ∧
    (∀ e, WindowsIconSet.tryFrom apiSet = .error e →
      set_icon_for_folder p w apiSet uuid = (.error (.iconError e), w, [])) ∧
    Ev.encoderRan false ∉ (set_icon_for_folder p w apiSet uuid).2.2 := by
  have hcomp : ∀ ws, WindowsIconSet.tryFrom apiSet = .ok ws → ws.is_complete = true := by
    intro ws h
    rcases h1 : tryFromAll apiSet.images with e | icons
    · simp [WindowsIconSet.tryFrom, h1] at h
    · simp only [WindowsIconSet.tryFrom, h1] at h
      rcases h2 : WindowsIconSet.from_icons icons with e | ws'
      · simp [h2] at h
      · simp only [h2] at h
        rcases h3 : ws'.is_complete with _ | _
        · simp [h3] at h
        · simp [h3] at h
          subst h
          exact h3
  refine ⟨hcomp, ?_, ?_⟩
  · intro e he
    simp [set_icon_for_folder, he]
  · rcases ht : WindowsIconSet.tryFrom apiSet with e | ws
    · simp [set_icon_for_folder, ht]
    · have hc := hcomp ws ht
      have hmem := encoderRan_false_not_mem p w ws uuid hc
      rcases hres : set_icon_for_folder_windows p w ws uuid with ⟨st, w', evs⟩
      rw [hres] at hmem
      rcases st with e2 | u
      · simpa [set_icon_for_folder, ht, hres] using hmem
      · obtain ⟨⟩ := u
        simpa [set_icon_for_folder, ht, hres] using hmem

/-- Witness for C1 (amended): the empty platform-agnostic set is rejected by
the generic entry point with no mutation. -/
theorem c1_generic_rejects_incomplete_witness :
    WindowsIconSet.tryFrom ⟨[]⟩ = .error (.iconSetMissing WindowsIconSize.all) ∧
    set_icon_for_folder ⟨true, "p"⟩ ⟨true, true, false, [], none⟩ ⟨[]⟩ "u" =
      (.error (.iconError (.iconSetMissing WindowsIconSize.all)),
        ⟨true, true, false, [], none⟩, []) := by
  refine ⟨rfl, ?_⟩
  exact (c1_generic_rejects_incomplete ⟨true, "p"⟩ ⟨true, true, false, [], none⟩
    ⟨[]⟩ "u").2.1 (.iconSetMissing WindowsIconSize.all) rfl

/-- A single well-formed 16x16 all-zero RGBA image (buffer length
`16 * 16 * 4`), used to build a nonempty but incomplete set. -/
def px16Image : WindowsIconImage :=
  ⟨.Px16, ⟨16, 16, List.replicate (16 * 16 * 4) 0⟩⟩

set_option maxRecDepth 20000 in
/-- **C1 counterexample.** The Windows-specific entry point
`set_icon_for_folder_windows` performs no completeness check: called on a
valid empty directory with an incomplete one-image `WindowsIconSet` (only
`Px16` present, so `is_complete` is false), it *succeeds* — the encoder runs
and receives the incomplete set (`encoderRan false`), its single frame is
within `IcoEncoder::encode_images`'s accepted `1..=65535` range, a file is
written and the shell pointer is set — instead of returning an error before
the encoder runs, refuting the claim for that entry point. -/
theorem c1_counterexample :
    WindowsIconSet.from_icons [px16Image] = .ok ⟨[(.Px16, px16Image)]⟩ ∧
    WindowsIconSet.is_complete ⟨[(.Px16, px16Image)]⟩ = false ∧
    set_icon_for_folder_windows ⟨true, "p"⟩ ⟨true, true, false, [], none⟩
        ⟨[(.Px16, px16Image)]⟩ "u" =
      (.ok (), ⟨true, true, false, ["p-u.ico"], some "p-u.ico"⟩,
        [.encoderRan false, .wroteFile "p-u.ico", .setPointer "p-u.ico"]) :=
  ⟨rfl, rfl, rfl⟩

/-! ## Claim theorems: extraction resource handling -/

/-- **C4 (code evaluation).** The extraction routine acquires the rendering
context exactly once, but does *not* release it on every failure path: when
`GetDIBits` reports zero lines copied for the first directory entry (a
bitmap-query failure), the call returns the error with the context acquired
once and released zero times.  On a successfully processed directory the
context is released exactly once before returning. -/
theorem c4_context_leak_on_bitmap_query_failure :
    load_icon_set_from_shell32
        ⟨true, true, true, true, true, true, [⟨true, true, true, false, 16, 16, []⟩]⟩ =
      (.error .win32, 1, 0) ∧
    load_icon_set_from_shell32 ⟨true, true, true, true, true, true, []⟩ =
      (.ok ⟨[]⟩, 1, 1) :=
  ⟨rfl, rfl⟩

/-! ## Claim theorems: the container encoder -/

/-- Every canonical size is in the catalog's `all()` list. -/
theorem mem_all (z : WindowsIconSize) : z ∈ WindowsIconSize.all := by
  cases z <;> decide

/-- A sorted map that contains every canonical size has exactly the canonical
key list, in ascending order. -/
theorem keys_eq_all (l : List IconMapEntry) (hs : l.Pairwise pairLt)
    (hc : ∀ z : WindowsIconSize, mapContains l z = true) :
    l.map Prod.fst = WindowsIconSize.all := by
  have hsorted : (l.map Prod.fst).Pairwise
      (fun a b : WindowsIconSize => a.dimension < b.dimension) :=
    List.pairwise_map.mpr hs
  have hnodup : (l.map Prod.fst).Nodup :=
    hsorted.imp (fun hlt hab => absurd (hab ▸ hlt) (lt_irrefl _))
  have hmem : ∀ z : WindowsIconSize, z ∈ l.map Prod.fst := by
    intro z
    have hz := hc z
    rw [mapContains, List.any_eq_true] at hz
    obtain ⟨q, hq, hqz⟩ := hz
    exact List.mem_map.mpr ⟨q, hq, eq_of_beq hqz⟩
  have hperm : (l.map Prod.fst).Perm WindowsIconSize.all :=
    (List.perm_ext_iff_of_nodup hnodup (by decide)).mpr
      (fun z => ⟨fun _ => mem_all z, fun _ => hmem z⟩)
  haveI : IsAntisymm WindowsIconSize (fun a b => a.dimension < b.dimension) :=
    ⟨fun a b h1 h2 => absurd h2 (Nat.lt_asymm h1)⟩
  exact List.eq_of_perm_of_sorted hperm hsorted (by decide)

/-- A complete set's map contains every canonical size. -/
theorem complete_contains (s : WindowsIconSet) (hc : s.is_complete = true) :
    ∀ z : WindowsIconSize, mapContains s.images z = true := by
  intro z
  rcases hb : mapContains s.images z with _ | _
  · have hz : z ∈ s.missing_sizes := by
      rw [WindowsIconSet.missing_sizes, List.mem_filter]
      refine ⟨mem_all z, ?_⟩
      rw [hb]
      rfl
    rw [WindowsIconSet.is_complete, List.isEmpty_iff] at hc
    rw [hc] at hz
    exact absurd hz (List.not_mem_nil z)
  · rfl

/-- The frame `to_ico_frames` builds for one map entry: the image bytes
PNG-compressed, declared square at the size's dimension, 32-bit RGBA. -/
def frameOf (q : IconMapEntry) : IcoFrame :=
  ⟨pngEncode q.2.image.bytes, q.1.dimension, q.1.dimension, .rgba8⟩

/-- The encoder fold succeeds on well-formed entries and appends one frame per
entry, in order. -/
theorem toIcoFramesAux_ok :
    ∀ (entries : List IconMapEntry) (acc : List IcoFrame),
      (∀ q ∈ entries, q.2.image.bytes.length = q.1.dimension * q.1.dimension * 4) →
      toIcoFramesAux acc entries = .ok (acc ++ entries.map frameOf) := by
  intro entries
  induction entries with
  | nil =>
      intro acc _
      simp [toIcoFramesAux]
  | cons q rest ih =>
      intro acc hwf
      obtain ⟨res, img⟩ := q
      have hq := hwf (res, img) (List.mem_cons_self _ _)
      have hfr : icoFrameAsPng img.image.bytes res.dimension res.dimension .rgba8 =
          .ok ⟨pngEncode img.image.bytes, res.dimension, res.dimension, .rgba8⟩ := by
        rw [icoFrameAsPng, if_pos hq]
      simp only [toIcoFramesAux, hfr]
      rw [ih (acc ++ [(⟨pngEncode img.image.bytes, res.dimension, res.dimension,
        .rgba8⟩ : IcoFrame)]) (fun q' hq' => hwf q' (List.mem_cons_of_mem _ hq'))]
      simp [frameOf, List.append_assoc]

/-- **C6.** For every complete `WindowsIconSet` (as built by `from_icons`)
whose images satisfy the data-model invariant
`buffer length = dimension² × 4`, the container encoder produces exactly eight
frames, one per canonical size, in ascending-dimension order
(16, 20, 24, 32, 40, 48, 64, 256), each a PNG-compressed frame whose declared
width and height equal its size's dimension and whose color type is 32-bit
RGBA. -/
theorem c6_encoder_frames (icons : List WindowsIconImage) (s : WindowsIconSet)
    (hok : WindowsIconSet.from_icons icons = .ok s)
    (hc : s.is_complete = true)
    (hwf : ∀ i ∈ icons,
      i.image.bytes.length = i.size.dimension * i.size.dimension * 4) :
    to_ico_frames s = .ok (s.iter.map frameOf) ∧
    (s.iter.map frameOf).length = 8 ∧
    (s.iter.map frameOf).map IcoFrame.width = [16, 20, 24, 32, 40, 48, 64, 256] ∧
    (s.iter.map frameOf).map IcoFrame.height = [16, 20, 24, 32, 40, 48, 64, 256] ∧
    ∀ fr ∈ s.iter.map frameOf, fr.colorType = ExtendedColorType.rgba8 := by
  have hgo : ∃ l, WindowsIconSet.fromIconsGo [] icons = .ok l ∧ s = ⟨l⟩ := by
    rcases hg : WindowsIconSet.fromIconsGo [] icons with e | l
    · simp [WindowsIconSet.from_icons, hg] at hok
    · simp only [WindowsIconSet.from_icons, hg] at hok
      have hls : (⟨l⟩ : WindowsIconSet) = s := by
        simpa using hok
      exact ⟨l, rfl, hls.symm⟩
  obtain ⟨l, hgo, rfl⟩ := hgo
  obtain ⟨hsorted, hmem⟩ := fromIconsGo_invariants icons [] l hgo List.Pairwise.nil
  have hcont := complete_contains ⟨l⟩ hc
  have hkeys : l.map Prod.fst = WindowsIconSize.all := keys_eq_all l hsorted hcont
  have hwfl : ∀ q ∈ l, q.2.image.bytes.length = q.1.dimension * q.1.dimension * 4 := by
    intro q hq
    rcases hmem q hq with h' | ⟨hks, hqi⟩
    · exact absurd h' (List.not_mem_nil q)
    · rw [hks]
      exact hwf q.2 hqi
  have henc : to_ico_frames ⟨l⟩ = .ok ([] ++ l.map frameOf) :=
    toIcoFramesAux_ok l [] hwfl
  rw [List.nil_append] at henc
  have hwidths : (l.map frameOf).map IcoFrame.width = [16, 20, 24, 32, 40, 48, 64, 256] := by
    have hmm : (l.map frameOf).map IcoFrame.width =
        (l.map Prod.fst).map WindowsIconSize.dimension := by
      simp [List.map_map, frameOf, Function.comp]
    rw [hmm, hkeys]
    rfl
  have hheights : (l.map frameOf).map IcoFrame.height = [16, 20, 24, 32, 40, 48, 64, 256] := by
    have hmm : (l.map frameOf).map IcoFrame.height =
        (l.map Prod.fst).map WindowsIconSize.dimension := by
      simp [List.map_map, frameOf, Function.comp]
    rw [hmm, hkeys]
    rfl
  have hlen : (l.map frameOf).length = 8 := by
    have h8 := congrArg List.length hkeys
    rw [List.length_map] at h8
    rw [List.length_map, h8]
    rfl
  refine ⟨henc, hlen, hwidths, hheights, ?_⟩
  intro fr hfr
  obtain ⟨q, _, rfl⟩ := List.mem_map.mp hfr
  rfl

/-- An all-zero square RGBA test image for a given canonical size, satisfying
the data-model invariant `buffer length = dimension² × 4`. -/
def zeroImage (z : WindowsIconSize) : WindowsIconImage :=
  ⟨z, ⟨z.dimension, z.dimension, List.replicate (z.dimension * z.dimension * 4) 0⟩⟩

/-- One all-zero image per canonical size. -/
def zeroIcons : List WindowsIconImage :=
  WindowsIconSize.all.map zeroImage

/-- The set built from `zeroIcons` (ascending insertion appends in order). -/
def zeroSet : WindowsIconSet :=
  ⟨zeroIcons.map (fun i => (i.size, i))⟩

/-- The all-zero icons satisfy the image-buffer invariant. -/
theorem zeroIcons_wellFormed :
    ∀ i ∈ zeroIcons, i.image.bytes.length = i.size.dimension * i.size.dimension * 4 := by
  intro i hi
  simp only [zeroIcons, WindowsIconSize.all, List.map_cons, List.map_nil,
    List.mem_cons, List.not_mem_nil, or_false] at hi
  rcases hi with rfl | rfl | rfl | rfl | rfl | rfl | rfl | rfl <;>
    exact List.length_replicate _ _

/-- Witness for C6 on the concrete all-zero complete set. -/
theorem c6_encoder_frames_witness :
    to_ico_frames zeroSet = .ok (zeroSet.iter.map frameOf) ∧
    (zeroSet.iter.map frameOf).map IcoFrame.width = [16, 20, 24, 32, 40, 48, 64, 256] ∧
    (zeroSet.iter.map frameOf).length = 8 := by
  have h := c6_encoder_frames zeroIcons zeroSet rfl rfl zeroIcons_wellFormed
  exact ⟨h.1, h.2.2.1, h.2.1⟩

/-! ## Claim theorems: SetIcon lifecycle -/

/-- Every file name generated by `generate_unique_ico_file_name` matches the
stale-file criterion (extension `"ico"`, starts with the prefix). -/
theorem generated_name_matches (p : WindowsFolderSettingsProvider) (uuid : String) :
    matchesGenerated p.generated_icon_prefix
      (p.generate_unique_ico_file_name uuid) = true := by
  have hstem : (p.generated_icon_prefix ++ "-" ++ uuid).data ≠ [] := by
    rw [String.data_append, String.data_append]
    intro hcontra
    exact absurd (List.append_eq_nil.mp (List.append_eq_nil.mp hcontra).1).2 (by decide)
  have hext := fileExtension_append_ico (p.generated_icon_prefix ++ "-" ++ uuid) hstem
  rw [WindowsFolderSettingsProvider.generate_unique_ico_file_name, matchesGenerated, hext,
    String.append_assoc, String.append_assoc, startsWith_self_append]
  rfl

/-- After the stale-file cleanup of a directory holding at most one matching
file, no matching file remains. -/
theorem remove_result_countP (p : WindowsFolderSettingsProvider)
    (entries : List String)
    (hc : entries.countP (matchesGenerated p.generated_icon_prefix) ≤ 1) :
    ((p.remove_existing_generated_ico entries).1).countP
      (matchesGenerated p.generated_icon_prefix) = 0 := by
  rcases hfind : p.find_existing_ico entries with _ | f
  · rw [WindowsFolderSettingsProvider.remove_existing_generated_ico, hfind]
    show entries.countP (matchesGenerated p.generated_icon_prefix) = 0
    rw [List.countP_eq_zero]
    exact List.find?_eq_none.mp hfind
  · rw [WindowsFolderSettingsProvider.remove_existing_generated_ico, hfind]
    show (entries.erase f).countP (matchesGenerated p.generated_icon_prefix) = 0
    have h1 := countP_erase_of_mem f entries (List.mem_of_find?_eq_some hfind)
      (List.find?_some hfind)
    omega

/-- Shape of a SetIcon call that passes validation and whose encoding
succeeds (the frame count within `IcoEncoder::encode_images`'s accepted
`1..=65535` range): stale-file cleanup, then a fresh file and the shell
pointer. -/
theorem set_icon_ok_shape (p : WindowsFolderSettingsProvider) (w : World)
    (ws : WindowsIconSet) (uuid : String)
    (hv : p.validate_folder w = .ok ()) (frames : List IcoFrame)
    (he : to_ico_frames ws = .ok frames)
    (hlo : 1 ≤ frames.length) (hhi : frames.length ≤ 65535) :
    set_icon_for_folder_windows p w ws uuid =
      (.ok (),
       { w with
          entries := writeFile (p.remove_existing_generated_ico w.entries).1
            (p.generate_unique_ico_file_name uuid),
          iconPointer := some (p.generate_unique_ico_file_name uuid) },
       (p.remove_existing_generated_ico w.entries).2 ++
         [Ev.encoderRan ws.is_complete,
          Ev.wroteFile (p.generate_unique_ico_file_name uuid),
          Ev.setPointer (p.generate_unique_ico_file_name uuid)]) := by
  simp [set_icon_for_folder_windows, hv, he]
  refine ⟨?_, by omega⟩
  intro hcontra
  rw [hcontra] at hlo
  simp at hlo

/-- One successful SetIcon step on a directory holding at most one matching
file: the call writes the fresh file after the cleanup, and exactly one
matching file remains. -/
theorem set_icon_step (p : WindowsFolderSettingsProvider) (w : World)
    (ws : WindowsIconSet) (uuid : String)
    (hcount : w.entries.countP (matchesGenerated p.generated_icon_prefix) ≤ 1)
    (hok : (set_icon_for_folder_windows p w ws uuid).1 = .ok ()) :
    set_icon_for_folder_windows p w ws uuid =
      (.ok (),
       { w with
          entries := (p.remove_existing_generated_ico w.entries).1 ++
            [p.generate_unique_ico_file_name uuid],
          iconPointer := some (p.generate_unique_ico_file_name uuid) },
       (p.remove_existing_generated_ico w.entries).2 ++
         [Ev.encoderRan ws.is_complete,
          Ev.wroteFile (p.generate_unique_ico_file_name uuid),
          Ev.setPointer (p.generate_unique_ico_file_name uuid)]) ∧
    ((p.remove_existing_generated_ico w.entries).1 ++
        [p.generate_unique_ico_file_name uuid]).countP
      (matchesGenerated p.generated_icon_prefix) = 1 := by
  rcases hv : p.validate_folder w with e | u
  · exfalso
    simp [set_icon_for_folder_windows, hv] at hok
  obtain ⟨⟩ := u
  rcases he : to_ico_frames ws with e | frames
  · exfalso
    simp [set_icon_for_folder_windows, hv, he] at hok
  by_cases hn : frames.length < 1 ∨ 65535 < frames.length
  · exfalso
    rcases hn with hn1 | hn2
    · have hfe : frames = [] := List.length_eq_zero.mp (by omega)
      simp [set_icon_for_folder_windows, hv, he, hfe] at hok
    · simp [set_icon_for_folder_windows, hv, he, hn2] at hok
  have hshape := set_icon_ok_shape p w ws uuid hv frames he (by omega) (by omega)
  have h0 := remove_result_countP p w.entries hcount
  have hm := generated_name_matches p uuid
  have hnotmem : p.generate_unique_ico_file_name uuid ∉
      (p.remove_existing_generated_ico w.entries).1 := by
    intro hmem
    have hpos := List.countP_pos_iff.mpr
      ⟨p.generate_unique_ico_file_name uuid, hmem, hm⟩
    omega
  have hwrite : writeFile (p.remove_existing_generated_ico w.entries).1
      (p.generate_unique_ico_file_name uuid) =
      (p.remove_existing_generated_ico w.entries).1 ++
        [p.generate_unique_ico_file_name uuid] := by
    rw [writeFile, if_neg hnotmem]
  refine ⟨by rw [hshape, hwrite], ?_⟩
  rw [List.countP_append, h0, List.countP_cons, hm]
  rfl

/-- Cleanup of a directory whose only matching file is a freshly generated
name appended after a matching-free list removes exactly that file. -/
theorem remove_after_set (p : WindowsFolderSettingsProvider)
    (l1 : List String) (uuid : String)
    (h0 : l1.countP (matchesGenerated p.generated_icon_prefix) = 0) :
    p.remove_existing_generated_ico (l1 ++ [p.generate_unique_ico_file_name uuid]) =
      (l1, [Ev.removedFile (p.generate_unique_ico_file_name uuid)]) := by
  have hm := generated_name_matches p uuid
  have hfind : p.find_existing_ico (l1 ++ [p.generate_unique_ico_file_name uuid]) =
      some (p.generate_unique_ico_file_name uuid) := by
    rw [WindowsFolderSettingsProvider.find_existing_ico, List.find?_append,
      List.find?_eq_none.mpr ?hnone, List.find?_cons_of_pos _ hm]
    · rfl
    case hnone =>
      intro a ha hpa
      have := List.countP_eq_zero.mp h0 a ha
      exact absurd hpa this
  have hnotmem : p.generate_unique_ico_file_name uuid ∉ l1 := by
    intro hmem
    have hpos := List.countP_pos_iff.mpr
      ⟨p.generate_unique_ico_file_name uuid, hmem, hm⟩
    omega
  rw [WindowsFolderSettingsProvider.remove_existing_generated_ico]
  simp only [hfind]
  rw [List.erase_append_right _ hnotmem, List.erase_cons_head, List.append_nil]

/-- **C2 (amended).** For every existing valid directory holding at most one
file matching the manager's prefix, a successful SetIcon followed by a second
successful SetIcon leaves exactly one matching generated file — the second
call's trace removes the first call's generated file before writing the
second's.  And ResetIcon on a folder with no generated file and no icon
pointer succeeds as a no-op beyond validation (the world is unchanged; only
the pointer-clearing shell call is made). -/
theorem c2_set_twice_and_reset :
    (∀ (p : WindowsFolderSettingsProvider) (w : World)
       (ws1 ws2 : WindowsIconSet) (u1 u2 : String)
       (r1 r2 : Except WindowsFolderSettingsError Unit × World × List Ev),
      w.entries.countP (matchesGenerated p.generated_icon_prefix) ≤ 1 →
      set_icon_for_folder_windows p w ws1 u1 = r1 → r1.1 = .ok () →
      set_icon_for_folder_windows p r1.2.1 ws2 u2 = r2 → r2.1 = .ok () →
      (r2.2.1.entries.countP (matchesGenerated p.generated_icon_prefix) = 1 ∧
        r2.2.2 = [Ev.removedFile (p.generate_unique_ico_file_name u1),
          Ev.encoderRan ws2.is_complete,
          Ev.wroteFile (p.generate_unique_ico_file_name u2),
          Ev.setPointer (p.generate_unique_ico_file_name u2)])) ∧
    (∀ (p : WindowsFolderSettingsProvider) (w : World),
      p.validate_folder w = .ok () →
      p.find_existing_ico w.entries = none →
      w.iconPointer = none →
      reset_icon_for_folder_windows p w = (.ok (), w, [Ev.clearedPointer])) := by
  constructor
  · intro p w ws1 ws2 u1 u2 r1 r2 hcount hr1 hok1 hr2 hok2
    subst hr1
    obtain ⟨hs1, hc1⟩ := set_icon_step p w ws1 u1 hcount hok1
    rw [hs1] at hr2
    dsimp only at hr2
    subst hr2
    obtain ⟨hs2, hc2⟩ := set_icon_step p _ ws2 u2 (le_of_eq hc1) hok2
    rw [hs2]
    dsimp only
    have h0 := remove_result_countP p w.entries hcount
    have hrm := remove_after_set p (p.remove_existing_generated_ico w.entries).1 u1 h0
    constructor
    · exact hc2
    · rw [hrm]
      rfl
  · intro p w hv hfind hptr
    obtain ⟨pe, di, kf, en, ip⟩ := w
    dsimp only at hfind hptr
    subst hptr
    simp [reset_icon_for_folder_windows, hv,
      WindowsFolderSettingsProvider.remove_existing_generated_ico, hfind]

/-- The all-zero images in `zeroSet` satisfy the buffer invariant, entrywise. -/
theorem zeroSet_wellFormed :
    ∀ q ∈ zeroSet.images,
      q.2.image.bytes.length = q.1.dimension * q.1.dimension * 4 := by
  intro q hq
  simp only [zeroSet, zeroIcons, WindowsIconSize.all, List.map_cons, List.map_nil,
    List.mem_cons, List.not_mem_nil, or_false] at hq
  rcases hq with rfl | rfl | rfl | rfl | rfl | rfl | rfl | rfl <;>
    exact List.length_replicate _ _

/-- The all-zero complete set encodes successfully. -/
theorem zeroSet_encodes :
    to_ico_frames zeroSet = .ok (zeroSet.images.map frameOf) := by
  have h := toIcoFramesAux_ok zeroSet.images [] zeroSet_wellFormed
  rw [List.nil_append] at h
  exact h

/-- The all-zero set encodes to exactly eight frames. -/
theorem zeroFrames_length : (zeroSet.images.map frameOf).length = 8 := by
  rw [List.length_map]
  rfl

/-- Eight frames are within `IcoEncoder::encode_images`'s accepted lower
bound. -/
theorem zeroFrames_lo : 1 ≤ (zeroSet.images.map frameOf).length := by
  rw [zeroFrames_length]
  omega

/-- Eight frames are within `IcoEncoder::encode_images`'s accepted upper
bound. -/
theorem zeroFrames_hi : (zeroSet.images.map frameOf).length ≤ 65535 := by
  rw [zeroFrames_length]
  omega

/-- Witness for C2 (amended) on an empty directory with two concrete SetIcon
calls on the all-zero complete set, plus the ResetIcon no-op. -/
theorem c2_set_twice_and_reset_witness :
    ((set_icon_for_folder_windows ⟨true, "p"⟩
        (set_icon_for_folder_windows ⟨true, "p"⟩
          ⟨true, true, false, [], none⟩ zeroSet "u1").2.1
        zeroSet "u2").2.1.entries).countP (matchesGenerated "p") = 1 ∧
    reset_icon_for_folder_windows ⟨true, "p"⟩ ⟨true, true, false, [], none⟩ =
      (.ok (), ⟨true, true, false, [], none⟩, [Ev.clearedPointer]) := by
  have hok1 : (set_icon_for_folder_windows ⟨true, "p"⟩
      ⟨true, true, false, [], none⟩ zeroSet "u1").1 = .ok () := by
    rw [set_icon_ok_shape ⟨true, "p"⟩ ⟨true, true, false, [], none⟩ zeroSet "u1"
      rfl _ zeroSet_encodes zeroFrames_lo zeroFrames_hi]
  have hok2 : (set_icon_for_folder_windows ⟨true, "p"⟩
      (set_icon_for_folder_windows ⟨true, "p"⟩
        ⟨true, true, false, [], none⟩ zeroSet "u1").2.1
      zeroSet "u2").1 = .ok () := by
    rw [set_icon_ok_shape ⟨true, "p"⟩
      (set_icon_for_folder_windows ⟨true, "p"⟩
        ⟨true, true, false, [], none⟩ zeroSet "u1").2.1 zeroSet "u2"
      (by rw [set_icon_ok_shape ⟨true, "p"⟩ ⟨true, true, false, [], none⟩ zeroSet "u1"
        rfl _ zeroSet_encodes zeroFrames_lo zeroFrames_hi]; rfl) _ zeroSet_encodes zeroFrames_lo zeroFrames_hi]
  obtain ⟨hcount1, _⟩ := c2_set_twice_and_reset.1 ⟨true, "p"⟩
    ⟨true, true, false, [], none⟩ zeroSet zeroSet "u1" "u2" _ _ (by decide)
    rfl hok1 rfl hok2
  exact ⟨hcount1, c2_set_twice_and_reset.2 ⟨true, "p"⟩
    ⟨true, true, false, [], none⟩ rfl rfl rfl⟩

/-- **C2 counterexample.** On an existing directory that already holds *two*
files matching the prefix, two successful SetIcon calls with complete sets
leave two matching files, not exactly one (each call removes only the first
matching entry), refuting the claim quantified over every existing
directory. -/
theorem c2_counterexample :
    WindowsIconSet.is_complete zeroSet = true ∧
    (set_icon_for_folder_windows ⟨true, "p"⟩
        ⟨true, true, false, ["p-a.ico", "p-b.ico"], none⟩ zeroSet "u1").1 = .ok () ∧
    (set_icon_for_folder_windows ⟨true, "p"⟩
        (set_icon_for_folder_windows ⟨true, "p"⟩
          ⟨true, true, false, ["p-a.ico", "p-b.ico"], none⟩ zeroSet "u1").2.1
        zeroSet "u2").1 = .ok () ∧
    (set_icon_for_folder_windows ⟨true, "p"⟩
        (set_icon_for_folder_windows ⟨true, "p"⟩
          ⟨true, true, false, ["p-a.ico", "p-b.ico"], none⟩ zeroSet "u1").2.1
        zeroSet "u2").2.1.entries = ["p-u1.ico", "p-u2.ico"] ∧
    (["p-u1.ico", "p-u2.ico"] : List String).countP (matchesGenerated "p") = 2 := by
  have h1 := set_icon_ok_shape ⟨true, "p"⟩
    ⟨true, true, false, ["p-a.ico", "p-b.ico"], none⟩ zeroSet "u1" rfl _ zeroSet_encodes zeroFrames_lo zeroFrames_hi
  have h2 := set_icon_ok_shape ⟨true, "p"⟩
    (set_icon_for_folder_windows ⟨true, "p"⟩
      ⟨true, true, false, ["p-a.ico", "p-b.ico"], none⟩ zeroSet "u1").2.1 zeroSet "u2"
    (by rw [h1]; rfl) _ zeroSet_encodes zeroFrames_lo zeroFrames_hi
  refine ⟨rfl, ?_, ?_, ?_, by decide⟩
  · rw [h1]
  · rw [h2]
  · rw [h2, h1]
    decide

end IconSys
